import Mathlib

/-!
Verification development for the credential-vault core of the ecobank
repository: the key-rotation script (scripts/rotate_keys.py) and the
account creation / import verification logic (app/account/routes.py).

The symmetric cipher (Fernet) is modelled abstractly as a pair of
functions: encryption always succeeds, decryption may fail (returns
none), which corresponds to the InvalidToken exception path of the
library. Cipher keys are natural numbers; the model never relies on
any concrete cryptographic property, only on the control flow of the
Python code, which is translated statement by statement.

Database session semantics (SQLAlchemy) are modelled explicitly: ORM
objects mutated during the loop form the in-session state; commit
persists the whole session state, rollback discards it and leaves the
store as it was.
-/

namespace EcoBank

/-- Abstract authenticated symmetric cipher. The enc field models
fernet.encrypt (total); the dec field models fernet.decrypt, where
none stands for a raised InvalidToken / any decryption exception. -/
structure Cipher where
  enc : Nat → String → String
  dec : Nat → String → Option String

/-- Persisted HiveAccount row, restricted to the fields the rotation
script reads and writes (app/models.py, scripts/rotate_keys.py).
A none field models a NULL column; Python truthiness also treats an
empty string as absent, see truthy below. -/
structure HiveAccount where
  id : Nat
  username : String
  password_enc : Option String
  keys_enc : Option String
deriving DecidableEq

/-- Python truthiness of an optional string column: None and the empty
string are falsy, anything else is truthy. Every access in
rotate_keys.py is guarded by such a test. -/
def truthy : Option String → Bool
  | some s => !s.isEmpty
  | none => false

/-- Opening one optional encrypted column with a key, as in the
statements password = fernet_old.decrypt(acc.password_enc) guarded by
truthiness. Except.error models the raised decryption exception,
Except.ok none the absent column. -/
def openField (c : Cipher) (key : Nat) (field : Option String) :
    Except Unit (Option String) :=
  if truthy field then
    match c.dec key (field.getD "") with
    | some p => Except.ok (some p)
    | none => Except.error ()
  else Except.ok none

/-- Detects the exception outcome of openField. -/
def isError : Except Unit (Option String) → Bool
  | Except.error _ => true
  | Except.ok _ => false

/-- The body of the per-account try block of rotate_keys
(scripts/rotate_keys.py lines 50-79), translated statement by
statement: decrypt both columns with the old key, overwrite each
truthy column with a new-key encryption, then immediately re-decrypt
each overwritten column with the new key and compare with the original
plaintext. The returned account is the state of the ORM object when
the block finishes or when the exception is caught: in particular, a
failure in the verification step returns the account with its columns
already overwritten. The boolean is true when the block ran to the end
(the record counts as changed), false when an exception was caught. -/
def processAccount (c : Cipher) (oldKey newKey : Nat) (acc : HiveAccount) :
    HiveAccount × Bool :=
  match openField c oldKey acc.password_enc with
  | Except.error _ => (acc, false)
  | Except.ok password =>
    match openField c oldKey acc.keys_enc with
    | Except.error _ => (acc, false)
    | Except.ok keysJson =>
      let acc1 := if truthy password then
          { acc with password_enc := some (c.enc newKey (password.getD "")) }
        else acc
      let acc2 := if truthy keysJson then
          { acc1 with keys_enc := some (c.enc newKey (keysJson.getD "")) }
        else acc1
      if truthy password &&
          !(c.dec newKey (acc2.password_enc.getD "") == some (password.getD "")) then
        (acc2, false)
      else if truthy keysJson &&
          !(c.dec newKey (acc2.keys_enc.getD "") == some (keysJson.getD "")) then
        (acc2, false)
      else
        (acc2, true)

/-- The for-loop of rotate_keys over all accounts: returns the
in-session state of every ORM object together with the changed_count
and errors counters. Failures are per record; the loop always proceeds
to the next account. -/
def scanAccounts (c : Cipher) (oldKey newKey : Nat) :
    List HiveAccount → List HiveAccount × Nat × Nat
  | [] => ([], 0, 0)
  | acc :: rest =>
    let pr := processAccount c oldKey newKey acc
    let r := scanAccounts c oldKey newKey rest
    (pr.1 :: r.1,
     (if pr.2 then 1 else 0) + r.2.1,
     (if pr.2 then 0 else 1) + r.2.2)

/-- Outcome of one rotation run: the persisted store after the final
commit or rollback, and the two printed counters. -/
structure RotationOutcome where
  store : List HiveAccount
  changed : Nat
  errors : Nat
deriving DecidableEq

/-- The batch decision at the end of rotate_keys (scripts/rotate_keys.py
lines 93-113): dry_run rolls back unconditionally; otherwise errors > 0
without ignore_errors rolls back; otherwise the whole session is
committed. Rollback leaves the persisted store exactly as it was;
commit persists the in-session state of every account. -/
def rotateKeys (c : Cipher) (oldKey newKey : Nat) (dryRun ignoreErrors : Bool)
    (store : List HiveAccount) : RotationOutcome :=
  let r := scanAccounts c oldKey newKey store
  if dryRun then ⟨store, r.2.1, r.2.2⟩
  else if r.2.2 > 0 && !ignoreErrors then ⟨store, r.2.1, r.2.2⟩
  else ⟨r.1, r.2.1, r.2.2⟩

/-- Exit status of the rotate-keys command line process
(scripts/rotate_keys.py, main and the module guard): main builds the
arguments, runs the rotation for its effect and returns None; no code
path calls sys.exit and no exception escapes the per-record handler of
rotate_keys on the revert path, so the interpreter exits with status 0
whatever the batch outcome was. Collaborator failures that raise
before the loop (bad key format, database unavailable) are outside
this model. -/
def mainExitCode (c : Cipher) (oldKey newKey : Nat) (dryRun ignoreErrors : Bool)
    (store : List HiveAccount) : Nat :=
  let _ := rotateKeys c oldKey newKey dryRun ignoreErrors store
  0

/-- Key roles of a Hive account, as used in app/account/routes.py. -/
inductive Role
  | owner
  | active
  | posting
  | memo
deriving DecidableEq

/-- Public/private key pair as stored in the keys dictionary:
fields public and private of the JSON object built by the routes. -/
structure KeyPair where
  pub : String
  priv : String
deriving DecidableEq

/-- On-chain authority view of one account, as read by the routes from
the blockchain Account object: for owner, active and posting a
weighted key_auths list of (public key, weight) pairs, for memo a
single public key string (the memo_key field). -/
structure AuthorityView where
  owner_auths : List (String × Nat)
  active_auths : List (String × Nat)
  posting_auths : List (String × Nat)
  memo_key : String
deriving DecidableEq

/-- The key_auths list the code reads for a weighted role via
acc.get(role, {}).get("key_auths", []). The memo role has no weighted
list; the code never reads one for it. -/
def roleAuths (a : AuthorityView) : Role → List (String × Nat)
  | Role.owner => a.owner_auths
  | Role.active => a.active_auths
  | Role.posting => a.posting_auths
  | Role.memo => []

/-- The authority check inside verify_key (app/account/routes.py lines
259-267), on an already-derived candidate public key: for memo an
exact string comparison with the single chain memo key, for the other
roles membership of the candidate among the first components of the
key_auths pairs (weights ignored). -/
def verifyRolePub (a : AuthorityView) (role : Role) (pub : String) : Bool :=
  match role with
  | Role.memo => a.memo_key == pub
  | r => ((roleAuths a r).map Prod.fst).contains pub

/-- The inner helper verify_key of import_account (app/account/routes.py
lines 251-270). The wifToPub parameter models the external
PrivateKey(wif).pubkey derivation; none models a parse exception,
which the helper catches and turns into a None return. On success the
helper returns the dictionary with the derived public key and the
supplied private key. -/
def verify_key (wifToPub : String → Option String) (a : AuthorityView)
    (role : Role) (private_wif : String) : Option KeyPair :=
  if private_wif.isEmpty then none
  else
    match wifToPub private_wif with
    | none => none
    | some pub =>
      if verifyRolePub a role pub then some ⟨pub, private_wif⟩ else none

/-- The three optional key fields of the import form, stripped; an
empty string is an absent field (Python truthiness). -/
structure RawKeysForm where
  posting_key : String
  active_key : String
  memo_key : String
deriving DecidableEq

/-- One conditional block of the raw-keys branch: if the form field is
truthy, run verify_key; on success append the role to keys_to_save and
set the verified flag, otherwise leave the state unchanged. -/
def addKey (wifToPub : String → Option String) (a : AuthorityView)
    (st : List (Role × KeyPair) × Bool) (rk : Role × String) :
    List (Role × KeyPair) × Bool :=
  if rk.2.isEmpty then st
  else
    match verify_key wifToPub a rk.1 rk.2 with
    | some kp => (st.1 ++ [(rk.1, kp)], true)
    | none => st

/-- The raw-keys branch of import_account (app/account/routes.py lines
249-302): the posting, active and memo fields are tried in that order
(the owner field is deliberately never read); if no role verified the
request is rejected (none) and nothing is stored, otherwise the
accumulated keys_to_save mapping is returned for encryption and
storage. -/
def importRawKeys (wifToPub : String → Option String) (a : AuthorityView)
    (form : RawKeysForm) : Option (List (Role × KeyPair)) :=
  let s := [(Role.posting, form.posting_key),
            (Role.active, form.active_key),
            (Role.memo, form.memo_key)].foldl (addKey wifToPub a) ([], false)
  if s.2 then some s.1 else none

/-- The supplied form field for each role; the owner role has no form
field in the import template and the commented-out owner block is
never executed. -/
def suppliedKey (form : RawKeysForm) : Role → String
  | Role.posting => form.posting_key
  | Role.active => form.active_key
  | Role.memo => form.memo_key
  | Role.owner => ""

/-- The master-password branch of import_account (app/account/routes.py
lines 212-246). The derive parameter models the external PasswordKey
derivation: username, passphrase and role to a key pair. The branch
derives the posting key, checks it against the first components of the
on-chain posting key_auths, and on success stores a keys_to_save
mapping with the active, posting and memo pairs, each derived for its
own role; no further authority check is made for active or memo. On a
failed posting match the request is rejected and nothing is stored. -/
def importPassphrase (derive : String → String → Role → KeyPair)
    (a : AuthorityView) (username passphrase : String) :
    Option (List (Role × KeyPair)) :=
  let derivedPub := (derive username passphrase Role.posting).pub
  if ((a.posting_auths.map Prod.fst).contains derivedPub) then
    some ([Role.active, Role.posting, Role.memo].map
      (fun r => (r, derive username passphrase r)))
  else none

/-- The keys dictionary built by the create route (app/account/routes.py
lines 91-100): one PasswordKey-derived pair for each of the four roles
owner, active, posting and memo; this dictionary is serialized,
encrypted and persisted as keys_enc of the new HiveAccount row. -/
def createKeys (derive : String → String → Role → KeyPair)
    (username password : String) : List (Role × KeyPair) :=
  [Role.owner, Role.active, Role.posting, Role.memo].map
    (fun r => (r, derive username password r))

/-- One conditional block of the raw-keys branch as a single optional
entry: the role paired with the verified key pair when the field is
truthy and verify_key succeeds, none otherwise. Used to state what
importRawKeys accumulates. -/
def keyEntry (wifToPub : String → Option String) (a : AuthorityView)
    (rk : Role × String) : Option (Role × KeyPair) :=
  if rk.2.isEmpty then none
  else (verify_key wifToPub a rk.1 rk.2).map (fun kp => (rk.1, kp))

/-- Concrete fixture cipher: encryption tags the plaintext with the key
number. -/
def encTag (k : Nat) (s : String) : String :=
  "E" ++ toString k ++ ":" ++ s

/-- Decryption for the fixture cipher, defined on the tagged forms of
the two plaintexts the fixtures use and failing on anything else. -/
def decTag (k : Nat) (s : String) : Option String :=
  if s == encTag k "pw" then some "pw"
  else if s == encTag k "kj" then some "kj"
  else none

/-- Fixture cipher satisfying the round trip on tagged ciphertexts. -/
def goodCipher : Cipher := ⟨encTag, decTag⟩

/-- Fixture cipher whose decryption is correct under key 0 but returns
garbage under any other key, so the round-trip verification of a
reseal from key 0 to key 1 fails. -/
def badCipher : Cipher :=
  ⟨encTag, fun k s => if k == 0 then decTag 0 s else some "corrupt"⟩

/-- Fixture deterministic key derivation: the public key encodes the
username, the passphrase and the role. -/
def testDerive : String → String → Role → KeyPair :=
  fun u p r =>
    ⟨u ++ ":" ++ p ++ ":" ++
      (match r with
       | Role.owner => "owner"
       | Role.active => "active"
       | Role.posting => "posting"
       | Role.memo => "memo"), "wif"⟩

/-- Fixture WIF parsing: three known private keys map to their public
keys, anything else fails to parse. -/
def testWifToPub : String → Option String :=
  fun s =>
    if s == "wifP" then some "pubP"
    else if s == "wifA" then some "pubA"
    else if s == "wifM" then some "pubM"
    else none

/-- Fixture authority view matching the three fixture public keys. -/
def testAuthority : AuthorityView :=
  ⟨[("pubO", 1)], [("pubA", 1)], [("pubP", 1)], "pubM"⟩

/-- Fixture authority view matching the keys testDerive produces for
username alice and passphrase pw on the posting role only: the active
authority and the memo key are deliberately different from the derived
ones. -/
def derivedAuthority : AuthorityView :=
  ⟨[], [("someoneElse", 1)], [("alice:pw:posting", 1)], "someoneElseMemo"⟩

/-- Fixture account whose two columns are sealed under fixture key 0. -/
def accSealed : HiveAccount :=
  ⟨1, "bob", some "E0:pw", some "E0:kj"⟩

/-- Fixture account with only the keys column, sealed under key 0. -/
def accKeysOnly : HiveAccount :=
  ⟨2, "carol", none, some "E0:kj"⟩

/-- Fixture account whose keys column does not decrypt under any key of
the fixture cipher. -/
def accGarbage : HiveAccount :=
  ⟨3, "eve", none, some "garbage"⟩

/-- Fixture account with an absent passphrase column and an empty keys
column, both falsy to the rotation script. -/
def accEmpty : HiveAccount :=
  ⟨4, "dave", none, some ""⟩

/-! Helper lemmas shared by the claim theorems. -/

/-- Membership among the first components of a weighted authority list
is what List.contains computes on the mapped list. -/
theorem contains_fst_iff (l : List (String × Nat)) (pub : String) :
    ((l.map Prod.fst).contains pub = true) ↔ ∃ w, (pub, w) ∈ l := by
  rw [List.elem_iff, List.mem_map]
  constructor
  · rintro ⟨⟨x, w⟩, hmem, hx⟩
    cases hx
    exact ⟨w, hmem⟩
  · rintro ⟨w, hw⟩
    exact ⟨(pub, w), hw, rfl⟩

/-- The sequential accumulation of the raw-keys branch equals a
filterMap of the per-field entries: the accumulated list extends the
initial one with every successful entry in order, and the verified
flag is set exactly when at least one entry succeeded. -/
theorem addKey_foldl (w : String → Option String) (a : AuthorityView) :
    ∀ (l : List (Role × String)) (st : List (Role × KeyPair) × Bool),
      (l.foldl (addKey w a) st).1 = st.1 ++ l.filterMap (keyEntry w a) ∧
      (l.foldl (addKey w a) st).2 = (st.2 || !(l.filterMap (keyEntry w a)).isEmpty)
  | [], st => by simp
  | rk :: rest, st => by
    have ih := addKey_foldl w a rest
    by_cases he : rk.2.isEmpty
    · have hk : keyEntry w a rk = none := by
        simp [keyEntry, he]
      simp only [List.foldl_cons, List.filterMap_cons, hk]
      have hstep : addKey w a st rk = st := by
        simp [addKey, he]
      rw [hstep]
      exact ih st
    · cases hv : verify_key w a rk.1 rk.2 with
      | none =>
        have hk : keyEntry w a rk = none := by
          simp [keyEntry, he, hv]
        simp only [List.foldl_cons, List.filterMap_cons, hk]
        have hstep : addKey w a st rk = st := by
          simp [addKey, he, hv]
        rw [hstep]
        exact ih st
      | some kp =>
        have hk : keyEntry w a rk = some (rk.1, kp) := by
          simp [keyEntry, he, hv]
        simp only [List.foldl_cons, List.filterMap_cons, hk]
        have hstep : addKey w a st rk = (st.1 ++ [(rk.1, kp)], true) := by
          simp [addKey, he, hv]
        rw [hstep]
        rcases ih (st.1 ++ [(rk.1, kp)], true) with ⟨h1, h2⟩
        refine ⟨?_, ?_⟩
        · rw [h1]; simp
        · rw [h2]; simp

/-- The raw-keys branch, restated through keyEntry: reject when no
field produced an entry, otherwise return exactly the successful
entries in field order. -/
theorem importRawKeys_eq (w : String → Option String) (a : AuthorityView)
    (form : RawKeysForm) :
    importRawKeys w a form =
      (if ([(Role.posting, form.posting_key),
            (Role.active, form.active_key),
            (Role.memo, form.memo_key)].filterMap (keyEntry w a)).isEmpty
       then none
       else some ([(Role.posting, form.posting_key),
                   (Role.active, form.active_key),
                   (Role.memo, form.memo_key)].filterMap (keyEntry w a))) := by
  have h := addKey_foldl w a
    [(Role.posting, form.posting_key),
     (Role.active, form.active_key),
     (Role.memo, form.memo_key)] ([], false)
  rcases h with ⟨h1, h2⟩
  simp only [importRawKeys]
  rw [h1, h2]
  cases hbe : ([(Role.posting, form.posting_key),
                (Role.active, form.active_key),
                (Role.memo, form.memo_key)].filterMap (keyEntry w a)).isEmpty <;>
    simp [hbe]

/-- Characterization of one successful per-field entry. -/
theorem keyEntry_eq_some (w : String → Option String) (a : AuthorityView)
    (r0 : Role) (k : String) (r : Role) (kp : KeyPair) :
    keyEntry w a (r0, k) = some (r, kp) ↔
      (r0 = r ∧ k.isEmpty = false ∧ verify_key w a r0 k = some kp) := by
  unfold keyEntry
  by_cases he : k.isEmpty
  · simp [he]
  · cases hv : verify_key w a r0 k with
    | none => simp [he, hv]
    | some kp0 =>
      simp [he, hv, Prod.ext_iff, and_comm]

/-- Membership in the accumulated entry list of the raw-keys branch:
exactly the roles whose form field was supplied and whose key passed
verify_key, paired with the key pair verify_key returned. -/
theorem mem_rawEntries_iff (w : String → Option String) (a : AuthorityView)
    (form : RawKeysForm) (r : Role) (kp : KeyPair) :
    ((r, kp) ∈ ([(Role.posting, form.posting_key),
                 (Role.active, form.active_key),
                 (Role.memo, form.memo_key)].filterMap (keyEntry w a))) ↔
      ((suppliedKey form r).isEmpty = false ∧
       verify_key w a r (suppliedKey form r) = some kp) := by
  rw [List.mem_filterMap]
  have hse : "".isEmpty = true := by decide
  cases r <;>
    simp [keyEntry_eq_some, suppliedKey, hse]

/-! Claim theorems. -/

/-- Claim C5: for every rotation run with dry_run true, regardless of
the records or their per-record outcomes, nothing is persisted: the
store is identical before and after the run, while the reported
changed and error counters are still the ones the scan computed. -/
theorem dry_run_preserves_store (c : Cipher) (oldKey newKey : Nat)
    (ignoreErrors : Bool) (store : List HiveAccount) :
    rotateKeys c oldKey newKey true ignoreErrors store =
      ⟨store, (scanAccounts c oldKey newKey store).2.1,
        (scanAccounts c oldKey newKey store).2.2⟩ := by
  simp [rotateKeys]

/-- Claim C4: with dry_run false and ignore_errors false, if at least
one record failed (old-key decryption error or round-trip mismatch,
both counted in the errors component of the scan) then the run rolls
back and the persisted store is exactly the input store, every record
still under the old key, including the ones that verified. -/
theorem strict_mode_reverts_all (c : Cipher) (oldKey newKey : Nat)
    (store : List HiveAccount)
    (h : 0 < (scanAccounts c oldKey newKey store).2.2) :
    rotateKeys c oldKey newKey false false store =
      ⟨store, (scanAccounts c oldKey newKey store).2.1,
        (scanAccounts c oldKey newKey store).2.2⟩ := by
  simp [rotateKeys, h]

/-- Witness for strict_mode_reverts_all: one record whose keys column
does not decrypt under the old fixture key; the run reverts and the
store is unchanged. -/
theorem strict_mode_reverts_all_witness :
    rotateKeys goodCipher 0 1 false false [accGarbage] =
      ⟨[accGarbage], (scanAccounts goodCipher 0 1 [accGarbage]).2.1,
        (scanAccounts goodCipher 0 1 [accGarbage]).2.2⟩ :=
  strict_mode_reverts_all goodCipher 0 1 [accGarbage] (by decide)

/-- Claim C10: a record whose two encrypted columns are both absent or
empty is processed without any cipher call (the result is the same for
every cipher and the record is returned unchanged) and still counts
toward the reported number of successfully rotated accounts. -/
theorem empty_record_counts_as_changed (c : Cipher) (oldKey newKey : Nat)
    (acc : HiveAccount) (rest : List HiveAccount)
    (h1 : truthy acc.password_enc = false) (h2 : truthy acc.keys_enc = false) :
    processAccount c oldKey newKey acc = (acc, true) ∧
    (scanAccounts c oldKey newKey (acc :: rest)).2.1 =
      1 + (scanAccounts c oldKey newKey rest).2.1 := by
  have hp : processAccount c oldKey newKey acc = (acc, true) := by
    have ht : truthy none = false := rfl
    simp [processAccount, openField, h1, h2, ht]
  refine ⟨hp, ?_⟩
  simp [scanAccounts, hp]

/-- Witness for empty_record_counts_as_changed at the fixture account
with a NULL passphrase column and an empty keys column. -/
theorem empty_record_counts_as_changed_witness :
    processAccount goodCipher 0 1 accEmpty = (accEmpty, true) ∧
    (scanAccounts goodCipher 0 1 (accEmpty :: [])).2.1 =
      1 + (scanAccounts goodCipher 0 1 []).2.1 :=
  empty_record_counts_as_changed goodCipher 0 1 accEmpty []
    (by decide) (by decide)

/-- Claim C6: given that both columns of a record opened under the old
key (yielding the optional plaintexts pw and kj), the record counts as
successfully rotated exactly when, for each truthy plaintext, the
freshly resealed new-key envelope reopens under the new key to the
original plaintext; any mismatch makes the record a failure, failures
increment the error counter, and the scan continues with the next
record. -/
theorem roundtrip_gate (c : Cipher) (oldKey newKey : Nat) (acc : HiveAccount)
    (rest : List HiveAccount) (pw kj : Option String)
    (h1 : openField c oldKey acc.password_enc = Except.ok pw)
    (h2 : openField c oldKey acc.keys_enc = Except.ok kj) :
    ((processAccount c oldKey newKey acc).2 = true ↔
      ((truthy pw = true →
          c.dec newKey (c.enc newKey (pw.getD "")) = some (pw.getD "")) ∧
       (truthy kj = true →
          c.dec newKey (c.enc newKey (kj.getD "")) = some (kj.getD "")))) ∧
    scanAccounts c oldKey newKey (acc :: rest) =
      ((processAccount c oldKey newKey acc).1 ::
         (scanAccounts c oldKey newKey rest).1,
       (if (processAccount c oldKey newKey acc).2 then 1 else 0) +
         (scanAccounts c oldKey newKey rest).2.1,
       (if (processAccount c oldKey newKey acc).2 then 0 else 1) +
         (scanAccounts c oldKey newKey rest).2.2) := by
  constructor
  · unfold processAccount
    rw [h1, h2]
    by_cases tp : truthy pw <;> by_cases tk : truthy kj <;>
      by_cases e1 : c.dec newKey (c.enc newKey (pw.getD "")) =
          some (pw.getD "") <;>
        by_cases e2 : c.dec newKey (c.enc newKey (kj.getD "")) =
            some (kj.getD "") <;>
          simp [tp, tk, e1, e2]
  · rfl

/-- Witness for roundtrip_gate: the fixture record sealed under key 0
rotates successfully to key 1 under the fixture cipher. -/
theorem roundtrip_gate_witness :
    (processAccount goodCipher 0 1 accSealed).2 = true :=
  (roundtrip_gate goodCipher 0 1 accSealed [] (some "pw") (some "kj")
      rfl rfl).1.mpr ⟨by decide, by decide⟩

/-- Counterexample to claim C2: with ignore_errors true, a record that
fails the post-reseal round-trip verification has already had its keys
column overwritten with new-key ciphertext, and the final commit
persists that overwritten column: after the run the failed record
(errors = 1) no longer carries its original old-key ciphertext; the
script also produces no report object at all, only printed counters. -/
theorem ignore_errors_commits_mutated_record :
    rotateKeys badCipher 0 1 false true [accKeysOnly] =
      ⟨[⟨2, "carol", none, some "E1:kj"⟩], 0, 1⟩ ∧
    (⟨2, "carol", none, some "E1:kj"⟩ : HiveAccount).keys_enc ≠
      accKeysOnly.keys_enc := by
  decide

/-- Amended claim C2: with dry_run false and ignore_errors true the
whole in-session state is committed; a record that failed while
opening a column under the old key was never mutated and therefore
keeps its unmodified, still-old-key ciphertext, whereas a record that
failed only the post-reseal verification is committed with its columns
already overwritten. -/
theorem ignore_errors_spares_unopened_records (c : Cipher)
    (oldKey newKey : Nat) (acc : HiveAccount) (store : List HiveAccount)
    (h : isError (openField c oldKey acc.password_enc) = true ∨
         isError (openField c oldKey acc.keys_enc) = true) :
    processAccount c oldKey newKey acc = (acc, false) ∧
    rotateKeys c oldKey newKey false true store =
      ⟨(scanAccounts c oldKey newKey store).1,
        (scanAccounts c oldKey newKey store).2.1,
        (scanAccounts c oldKey newKey store).2.2⟩ := by
  constructor
  · rcases h with h | h
    · cases hov : openField c oldKey acc.password_enc with
      | error e => simp [processAccount, hov]
      | ok v =>
        rw [hov] at h
        simp [isError] at h
    · cases hov : openField c oldKey acc.password_enc with
      | error e => simp [processAccount, hov]
      | ok v =>
        cases hok : openField c oldKey acc.keys_enc with
        | error e => simp [processAccount, hov, hok]
        | ok w =>
          rw [hok] at h
          simp [isError] at h
  · simp [rotateKeys]

/-- Witness for ignore_errors_spares_unopened_records: the fixture
record whose keys column does not decrypt is returned unmodified and
the session is committed. -/
theorem ignore_errors_spares_unopened_records_witness :
    processAccount goodCipher 0 1 accGarbage = (accGarbage, false) ∧
    rotateKeys goodCipher 0 1 false true [accGarbage] =
      ⟨(scanAccounts goodCipher 0 1 [accGarbage]).1,
        (scanAccounts goodCipher 0 1 [accGarbage]).2.1,
        (scanAccounts goodCipher 0 1 [accGarbage]).2.2⟩ :=
  ignore_errors_spares_unopened_records goodCipher 0 1 accGarbage [accGarbage]
    (Or.inr (by decide))

/-- Counterexample to claim C9: a strict-mode run with one failing
record is reverted (the store stays as it was and the error counter is
1), yet the command line process still finishes with exit status 0;
main never calls sys.exit and rotate_keys returns normally after the
rollback. -/
theorem exit_code_zero_on_revert :
    0 < (scanAccounts goodCipher 0 1 [accGarbage]).2.2 ∧
    rotateKeys goodCipher 0 1 false false [accGarbage] =
      ⟨[accGarbage], 0, 1⟩ ∧
    mainExitCode goodCipher 0 1 false false [accGarbage] = 0 := by
  decide

/-- Amended claim C9: the rotation command line process exits with
status 0 on every outcome it reaches through rotate_keys: full
success, dry run, and also a batch reverted because of unresolved
failures; the exit status never distinguishes them. -/
theorem exit_code_always_zero (c : Cipher) (oldKey newKey : Nat)
    (dryRun ignoreErrors : Bool) (store : List HiveAccount) :
    mainExitCode c oldKey newKey dryRun ignoreErrors store = 0 := rfl

/-- Claim C7: role verification of a candidate public key against the
authority view holds for posting and active exactly when the candidate
is the first component of some pair of the weighted key_auths list
(the weight plays no part), and for memo exactly when the candidate
equals the single chain memo key. -/
theorem verify_role_semantics (a : AuthorityView) (pub : String) :
    (verifyRolePub a Role.posting pub = true ↔
      ∃ w, (pub, w) ∈ a.posting_auths) ∧
    (verifyRolePub a Role.active pub = true ↔
      ∃ w, (pub, w) ∈ a.active_auths) ∧
    (verifyRolePub a Role.memo pub = true ↔ pub = a.memo_key) := by
  refine ⟨?_, ?_, ?_⟩
  · exact contains_fst_iff a.posting_auths pub
  · exact contains_fst_iff a.active_auths pub
  · constructor
    · intro h
      have hb : (a.memo_key == pub) = true := h
      exact (beq_iff_eq.mp hb).symm
    · intro h
      show (a.memo_key == pub) = true
      exact beq_iff_eq.mpr h.symm

/-- Claim C8: on the raw-keys path a supplied role is present in the
resulting keyset exactly when its key verified, so a failing role is
silently dropped without failing the call; and the call returns the
rejection (none, nothing stored) exactly when no supplied role
verified at all. -/
theorem raw_keys_drop_and_reject (w : String → Option String)
    (a : AuthorityView) (form : RawKeysForm) :
    (importRawKeys w a form = none ↔
      ∀ r : Role, (suppliedKey form r).isEmpty = true ∨
        verify_key w a r (suppliedKey form r) = none) ∧
    (∀ ks, importRawKeys w a form = some ks →
      ∀ r kp, ((r, kp) ∈ ks ↔
        ((suppliedKey form r).isEmpty = false ∧
         verify_key w a r (suppliedKey form r) = some kp))) := by
  have heq := importRawKeys_eq w a form
  have hmem := mem_rawEntries_iff w a form
  by_cases hL : ([(Role.posting, form.posting_key),
                  (Role.active, form.active_key),
                  (Role.memo, form.memo_key)].filterMap (keyEntry w a)).isEmpty
  · have hnil : [(Role.posting, form.posting_key),
                 (Role.active, form.active_key),
                 (Role.memo, form.memo_key)].filterMap (keyEntry w a) = [] :=
      List.isEmpty_iff.mp hL
    constructor
    · constructor
      · intro _ r
        by_cases he : (suppliedKey form r).isEmpty
        · exact Or.inl he
        · refine Or.inr ?_
          cases hv : verify_key w a r (suppliedKey form r) with
          | none => rfl
          | some kp =>
            have hin := (hmem r kp).mpr ⟨by simpa using he, hv⟩
            rw [hnil] at hin
            simp at hin
      · intro _
        rw [heq]
        simp [hL]
    · intro ks hks
      rw [heq] at hks
      simp [hL] at hks
  · constructor
    · constructor
      · intro h0
        rw [heq] at h0
        simp [hL] at h0
      · intro hall
        exfalso
        have hne : [(Role.posting, form.posting_key),
                    (Role.active, form.active_key),
                    (Role.memo, form.memo_key)].filterMap (keyEntry w a) ≠ [] := by
          intro hc
          rw [hc] at hL
          simp at hL
        rcases List.exists_mem_of_ne_nil _ hne with ⟨⟨r, kp⟩, hin⟩
        rcases (hmem r kp).mp hin with ⟨hf, hv⟩
        rcases hall r with h | h
        · rw [hf] at h
          simp at h
        · rw [hv] at h
          simp at h
    · intro ks hks r kp
      rw [heq] at hks
      simp [hL] at hks
      rw [← hks]
      exact hmem r kp

/-- Witness for raw_keys_drop_and_reject, mirroring the no-match
scenario: only a memo key is supplied and it does not match the chain
memo key, so nothing verifies and the call is rejected. -/
theorem raw_keys_drop_and_reject_witness :
    importRawKeys testWifToPub testAuthority ⟨"", "", "wifP"⟩ = none :=
  (raw_keys_drop_and_reject testWifToPub testAuthority ⟨"", "", "wifP"⟩).1.mpr
    (by intro r; cases r <;> decide)

/-- Counterexample to claim C3: under the fixture derivation and an
authority view that matches only the derived posting key, the
passphrase path stores the active and memo key pairs although neither
verifies against the authority view for its own role; the stored
keyset therefore contains keypairs that were never independently
verified. -/
theorem passphrase_path_stores_unverified_roles :
    importPassphrase testDerive derivedAuthority "alice" "pw" =
      some [(Role.active, ⟨"alice:pw:active", "wif"⟩),
            (Role.posting, ⟨"alice:pw:posting", "wif"⟩),
            (Role.memo, ⟨"alice:pw:memo", "wif"⟩)] ∧
    (Role.active, (⟨"alice:pw:active", "wif"⟩ : KeyPair)) ∈
      [(Role.active, (⟨"alice:pw:active", "wif"⟩ : KeyPair)),
       (Role.posting, ⟨"alice:pw:posting", "wif"⟩),
       (Role.memo, ⟨"alice:pw:memo", "wif"⟩)] ∧
    verifyRolePub derivedAuthority Role.active "alice:pw:active" = false ∧
    verifyRolePub derivedAuthority Role.memo "alice:pw:memo" = false := by
  decide

/-- Amended claim C3: on the passphrase path a derived posting key
matching the authority view is the sole gate; when it matches, the
stored keyset consists of the active, posting and memo pairs, each
independently derived from the passphrase for its own role, but the
active and memo pairs are stored without any verification of their own
against the authority view. -/
theorem passphrase_path_posting_gate (derive : String → String → Role → KeyPair)
    (a : AuthorityView) (u p : String) (ks : List (Role × KeyPair))
    (h : importPassphrase derive a u p = some ks) :
    verifyRolePub a Role.posting (derive u p Role.posting).pub = true ∧
    ks = [(Role.active, derive u p Role.active),
          (Role.posting, derive u p Role.posting),
          (Role.memo, derive u p Role.memo)] := by
  unfold importPassphrase at h
  by_cases hc : ((a.posting_auths.map Prod.fst).contains
      (derive u p Role.posting).pub)
  · refine ⟨hc, ?_⟩
    rw [if_pos hc] at h
    simpa using h.symm
  · rw [if_neg hc] at h
    simp at h

/-- Witness for passphrase_path_posting_gate at the fixture derivation
and the fixture authority view that matches the derived posting key. -/
theorem passphrase_path_posting_gate_witness :
    verifyRolePub derivedAuthority Role.posting
      (testDerive "alice" "pw" Role.posting).pub = true ∧
    [(Role.active, testDerive "alice" "pw" Role.active),
     (Role.posting, testDerive "alice" "pw" Role.posting),
     (Role.memo, testDerive "alice" "pw" Role.memo)] =
      [(Role.active, testDerive "alice" "pw" Role.active),
       (Role.posting, testDerive "alice" "pw" Role.posting),
       (Role.memo, testDerive "alice" "pw" Role.memo)] :=
  ⟨(passphrase_path_posting_gate testDerive derivedAuthority "alice" "pw"
      [(Role.active, testDerive "alice" "pw" Role.active),
       (Role.posting, testDerive "alice" "pw" Role.posting),
       (Role.memo, testDerive "alice" "pw" Role.memo)]
      (by decide)).1, rfl⟩

/-- Counterexample to claim C1: the keys dictionary persisted by the
account creation route contains all four roles, the owner role
included; the custody invariant does not hold on the creation path. -/
theorem create_keyset_contains_owner :
    (Role.owner, (⟨"alice:pw:owner", "wif"⟩ : KeyPair)) ∈
      createKeys testDerive "alice" "pw" ∧
    (createKeys testDerive "alice" "pw").map Prod.fst =
      [Role.owner, Role.active, Role.posting, Role.memo] := by
  decide

/-- Amended claim C1: the keysets persisted by the two import paths
never contain the owner role (the passphrase branch derives only
active, posting and memo; the raw-keys branch has no owner field at
all), while the keyset persisted at account creation always contains
the owner role alongside the other three. -/
theorem owner_custody_import_only (derive : String → String → Role → KeyPair)
    (w : String → Option String) (a1 a2 : AuthorityView) (u p : String)
    (form : RawKeysForm) (ks1 ks2 : List (Role × KeyPair))
    (h1 : importPassphrase derive a1 u p = some ks1)
    (h2 : importRawKeys w a2 form = some ks2) :
    Role.owner ∉ ks1.map Prod.fst ∧
    Role.owner ∉ ks2.map Prod.fst ∧
    Role.owner ∈ (createKeys derive u p).map Prod.fst := by
  refine ⟨?_, ?_, ?_⟩
  · unfold importPassphrase at h1
    by_cases hc : ((a1.posting_auths.map Prod.fst).contains
        (derive u p Role.posting).pub)
    · rw [if_pos hc] at h1
      have hks : ks1 = [Role.active, Role.posting, Role.memo].map
          (fun r => (r, derive u p r)) := by
        simpa using h1.symm
      rw [hks]
      simp
    · rw [if_neg hc] at h1
      simp at h1
  · intro hmem
    rw [List.mem_map] at hmem
    rcases hmem with ⟨⟨r, kp⟩, hin, hfst⟩
    cases hfst
    rw [importRawKeys_eq] at h2
    by_cases hL : ([(Role.posting, form.posting_key),
                    (Role.active, form.active_key),
                    (Role.memo, form.memo_key)].filterMap (keyEntry w a2)).isEmpty
    · simp [hL] at h2
    · simp [hL] at h2
      rw [← h2] at hin
      rcases (mem_rawEntries_iff w a2 form Role.owner kp).mp hin with ⟨hf, _⟩
      rw [show suppliedKey form Role.owner = "" from rfl] at hf
      exact absurd hf (by decide)
  · simp [createKeys]

/-- Witness for owner_custody_import_only: both import paths succeed
at the fixtures, and the resulting keysets exclude the owner role
while the creation keyset includes it. -/
theorem owner_custody_import_only_witness :
    Role.owner ∉ ([(Role.active, testDerive "alice" "pw" Role.active),
                   (Role.posting, testDerive "alice" "pw" Role.posting),
                   (Role.memo, testDerive "alice" "pw" Role.memo)].map
                     Prod.fst) ∧
    Role.owner ∉ ([(Role.posting, (⟨"pubP", "wifP"⟩ : KeyPair))].map
                     Prod.fst) ∧
    Role.owner ∈ (createKeys testDerive "alice" "pw").map Prod.fst :=
  owner_custody_import_only testDerive testWifToPub derivedAuthority
    testAuthority "alice" "pw" ⟨"wifP", "", ""⟩
    [(Role.active, testDerive "alice" "pw" Role.active),
     (Role.posting, testDerive "alice" "pw" Role.posting),
     (Role.memo, testDerive "alice" "pw" Role.memo)]
    [(Role.posting, ⟨"pubP", "wifP"⟩)] (by decide) (by decide)

end EcoBank
